import Mathlib

/-!
Verification development for the YAVA intent-classifier core
(`src/classifier.py` and `src/skill.py`).

The Python pipeline is shallowly embedded below:

* Python float arithmetic on similarity scores is modelled over `ℚ`.
  The embedding/cosine step (`EmbeddingGenerator.generate` plus the
  normalized dot products inside `InMemoryVectorStore.search`) computes with
  `np.random` floats from a process-salted `hash`, so the numeric values are
  not shallowly representable; classifiers are therefore parametrised by an
  uninterpreted map `simTo : String → List ℚ` giving, for a query text, the
  list of its similarity scores against the stored entries (one score per
  entry, in insertion order).  Everything downstream of the similarity
  vector is translated from the source line by line.
* Python dicts are association lists with first-occurrence lookup and
  in-place update (`dictInsert` / `dictUpdate` mirror `d[k] = v` and
  `d.update(...)` / `{**a, **b}`).
* Python's negative-index slice `xs[-k:]` is `takeLastPy` (including the
  `xs[-0:] = xs` corner case).
* `re` patterns are transcribed into a small backtracking regex AST with
  greedy quantifiers, one capture group, lookahead and word boundaries,
  matching Python's leftmost, left-biased backtracking search.  The matcher
  is fuel-bounded; the fuel is far larger than any backtracking depth
  reachable on the inputs considered.
* Wall-clock fields (`timestamp`, `processing_time_ms`) are omitted: they
  are the only non-deterministic outputs and no claim mentions them.
-/

-- Batteries seals rational arithmetic against unfolding; evaluation of the
-- embedded pipeline on concrete inputs (witnesses, counterexamples) needs
-- these definitions to compute, so restore the default reducibility.
attribute [local semireducible] Rat.mul Rat.inv Rat.add Rat.sub Rat.ofScientific

/-! ### Python-semantics helpers -/

/-- Python's `xs[-k:]` slice: the last `k` elements, except that `k = 0`
gives the whole list (since `xs[-0:] = xs[0:] = xs` in Python). -/
def takeLastPy {α : Type} (l : List α) (k : Nat) : List α :=
  if k = 0 then l else l.drop (l.length - k)

/-- Association-list model of a Python `dict` keyed by strings:
first-occurrence lookup. -/
def dictLookup {α : Type} (k : String) : List (String × α) → Option α
  | [] => none
  | kv :: tl => if kv.1 = k then some kv.2 else dictLookup k tl

/-- Key membership in a dict (`k in d`). -/
def dictContains {α : Type} (d : List (String × α)) (k : String) : Bool :=
  d.any (fun kv => kv.1 == k)

/-- Python's `d[k] = v`: update the existing entry in place (keeping its
position) or append a new one. -/
def dictInsert {α : Type} (d : List (String × α)) (k : String) (v : α) :
    List (String × α) :=
  if dictContains d k then d.map (fun kv => if kv.1 = k then (k, v) else kv)
  else d ++ [(k, v)]

/-- Python's `d1.update(d2)` (also `{**d1, **d2}`): later keys override. -/
def dictUpdate {α : Type} (d1 d2 : List (String × α)) : List (String × α) :=
  d2.foldl (fun acc kv => dictInsert acc kv.1 kv.2) d1

/-- Round-half-even on rationals, the rounding rule of Python's `round`. -/
def roundHalfEven (q : ℚ) : ℤ :=
  let f : ℤ := ⌊q⌋
  let r : ℚ := q - f
  if r < 1/2 then f
  else if 1/2 < r then f + 1
  else if 2 ∣ f then f else f + 1

/-- Python's `round(x, 3)` over the exact rational model. -/
def pyRound3 (q : ℚ) : ℚ := (roundHalfEven (q * 1000) : ℚ) / 1000

/-- The whitespace set of Python's `str.split` / `str.strip` / regex `\s`
(ASCII fragment, which covers every text this repository manipulates). -/
def isPySpace (c : Char) : Bool :=
  c.toNat == 32 || (9 ≤ c.toNat && c.toNat ≤ 13)

/-- ASCII lower-casing of one character (model of `str.lower`). -/
def asciiLowerChar (c : Char) : Char :=
  if 65 ≤ c.toNat ∧ c.toNat ≤ 90 then Char.ofNat (c.toNat + 32) else c

/-- ASCII lower-casing of a string (model of `str.lower`). -/
def asciiLowerStr (s : String) : String := String.mk (s.data.map asciiLowerChar)

/-- Accumulator pass of `pyWords`. -/
def pyWordsAux : List Char → List Char → List (List Char)
  | [], acc => if acc.isEmpty then [] else [acc.reverse]
  | c :: tl, acc =>
    if isPySpace c then
      if acc.isEmpty then pyWordsAux tl [] else acc.reverse :: pyWordsAux tl []
    else pyWordsAux tl (c :: acc)

/-- Python's `s.split()`: split on whitespace runs, discarding empties. -/
def pyWords (s : List Char) : List (List Char) := pyWordsAux s []

/-- Python's `s.strip()`. -/
def stripChars (s : List Char) : List Char :=
  ((s.dropWhile isPySpace).reverse.dropWhile isPySpace).reverse

/-- Python's substring test `needle in haystack`. -/
def isSubstring (needle haystack : List Char) : Bool :=
  match haystack with
  | [] => needle.isEmpty
  | _ :: tl => needle.isPrefixOf haystack || isSubstring needle tl

/-- An apostrophe character, for building text verbatim from the source. -/
def apoC : Char := Char.ofNat 39

/-! ### A small regex engine

Transcription target for the `re` patterns of `classifier.py`.  Greedy,
left-biased backtracking exactly as in CPython's `re.search`. -/

/-- Regex AST: character classes, sequencing, ordered alternation, greedy
star, greedy bounded repetition, a single capture group, zero-width
lookahead `(?=...)` and the word boundary `\b`. -/
inductive RE : Type where
  | eps : RE
  | cls (p : Char → Bool) : RE
  | seq (a b : RE) : RE
  | alt (a b : RE) : RE
  | star (a : RE) : RE
  | rep (a : RE) (lo hi : Nat) : RE
  | group (a : RE) : RE
  | look (a : RE) : RE
  | wordB : RE

/-- Python regex `\w` (ASCII fragment). -/
def isWordChar (c : Char) : Bool :=
  c.isAlpha || c.isDigit || c == '_'

/-- Result of a successful match attempt: remaining suffix and the capture
of the (single) group, if any. -/
structure MatchSt where
  rest : List Char
  cap : Option (List Char)

/-- Backtracking matcher in continuation-passing style.  `prev` is the
character just before the current position (for `\b`), `cap` the capture
recorded so far and `k` the success continuation.  `fuel` strictly bounds
the recursion depth; it is chosen large enough that it is never exhausted
on the inputs considered. -/
def reMatch (fuel : Nat) (r : RE) (prev : Option Char) (s : List Char)
    (cap : Option (List Char))
    (k : Option Char → List Char → Option (List Char) → Option MatchSt) :
    Option MatchSt :=
  match fuel with
  | 0 => none
  | fuel + 1 =>
    match r with
    | .eps => k prev s cap
    | .cls p =>
      match s with
      | [] => none
      | c :: tl => if p c then k (some c) tl cap else none
    | .seq a b =>
      reMatch fuel a prev s cap (fun p2 s2 c2 => reMatch fuel b p2 s2 c2 k)
    | .alt a b =>
      match reMatch fuel a prev s cap k with
      | some m => some m
      | none => reMatch fuel b prev s cap k
    | .star a =>
      match reMatch fuel a prev s cap
          (fun p2 s2 c2 => reMatch fuel (.star a) p2 s2 c2 k) with
      | some m => some m
      | none => k prev s cap
    | .rep a lo hi =>
      match hi with
      | 0 => (match lo with | 0 => k prev s cap | _ + 1 => none)
      | hi + 1 =>
        match lo with
        | lo + 1 =>
          reMatch fuel a prev s cap
            (fun p2 s2 c2 => reMatch fuel (.rep a lo hi) p2 s2 c2 k)
        | 0 =>
          match reMatch fuel a prev s cap
              (fun p2 s2 c2 => reMatch fuel (.rep a 0 hi) p2 s2 c2 k) with
          | some m => some m
          | none => k prev s cap
    | .group a =>
      reMatch fuel a prev s cap
        (fun p2 s2 _ => k p2 s2 (some (s.take (s.length - s2.length))))
    | .look a =>
      match reMatch fuel a prev s cap (fun _ s2 c2 => some ⟨s2, c2⟩) with
      | some _ => k prev s cap
      | none => none
    | .wordB =>
      let pw := match prev with | some c => isWordChar c | none => false
      let nw := match s with | c :: _ => isWordChar c | [] => false
      if pw ≠ nw then k prev s cap else none

/-- Fuel that dominates any backtracking depth on the inputs considered. -/
def reFuel (s : List Char) : Nat := (s.length + 4) * 512

/-- `re.search` scan: try each start position from the left; on success
return (start, matched length, capture). -/
def reSearchAux (fuel : Nat) (r : RE) (prev : Option Char) (s : List Char)
    (pos : Nat) : Option (Nat × Nat × Option (List Char)) :=
  match reMatch fuel r prev s none (fun _ s2 c2 => some ⟨s2, c2⟩) with
  | some m => some (pos, s.length - m.rest.length, m.cap)
  | none =>
    match s with
    | [] => none
    | c :: tl => reSearchAux fuel r (some c) tl (pos + 1)

/-- First capture group of the first match (`re.search(...).group(1)`). -/
def reSearch1 (r : RE) (s : List Char) : Option (List Char) :=
  match reSearchAux (reFuel s) r none s 0 with
  | some (_, _, cap) => cap
  | none => none

/-- Does the pattern occur anywhere (`re.search(...) is not None`)? -/
def reTest (r : RE) (s : List Char) : Bool :=
  (reSearchAux (reFuel s) r none s 0).isSome

/-- One pass of `re.split`: cut at every non-overlapping, nonzero-width
match, scanning left to right. -/
def reSplitGo (fuel : Nat) (r : RE) (prev : Option Char) (s : List Char) :
    List (List Char) :=
  match fuel with
  | 0 => [s]
  | fuel + 1 =>
    match reSearchAux (reFuel s) r prev s 0 with
    | none => [s]
    | some (pos, len, _) =>
      if len = 0 then [s]
      else
        let consumed := s.take (pos + len)
        (s.take pos) ::
          reSplitGo fuel r (consumed.getLast?) (s.drop (pos + len))

/-- Python's `re.split(pattern, s)` for patterns without capture groups. -/
def reSplit (r : RE) (s : List Char) : List (List Char) :=
  reSplitGo (s.length + 1) r none s

/-! ### Regex construction kit (IGNORECASE handled at build time) -/

/-- Single case-insensitive character. -/
def chrCI (c : Char) : RE :=
  .cls (fun x => asciiLowerChar x == asciiLowerChar c)

/-- Single case-sensitive character. -/
def chrCS (c : Char) : RE :=
  .cls (fun x => x == c)

/-- Case-insensitive literal text. -/
def litCI (s : String) : RE := (s.data.map chrCI).foldr .seq .eps

/-- Case-sensitive literal text. -/
def litCS (s : String) : RE := (s.data.map chrCS).foldr .seq .eps

/-- Ordered alternation of a list of branches. -/
def alts : List RE → RE
  | [] => .eps
  | [r] => r
  | r :: tl => .alt r (alts tl)

/-- `\d`. -/
def reDigit : RE := .cls Char.isDigit

/-- `\s`. -/
def reWs : RE := .cls isPySpace

/-- `\w`. -/
def reWord : RE := .cls isWordChar

/-- `r+` (greedy). -/
def plus (r : RE) : RE := .seq r (.star r)

/-- `r?` (greedy). -/
def opt (r : RE) : RE := .rep r 0 1

/-- `[A-Z]` or `[a-z]` under IGNORECASE: any ASCII letter. -/
def letterCI : RE := .cls (fun c => c.isAlpha)

/-- `[A-Z0-9]` under IGNORECASE: ASCII letter or digit. -/
def alnumCI : RE := .cls (fun c => c.isAlpha || c.isDigit)

/-- The class of a slash or dash character. -/
def slashDash : RE := .cls (fun c => c == '/' || c == '-')

/-- `[:\s]`. -/
def colonWs : RE := .cls (fun c => c == ':' || isPySpace c)

/-- `[-.]`. -/
def dashDot : RE := .cls (fun c => c == '-' || c == '.')

/-- `[- ]`. -/
def dashSpace : RE := .cls (fun c => c == '-' || c == ' ')

/-- Sequence of a list of regexes. -/
def seqL (l : List RE) : RE := l.foldr .seq .eps

/-- A single apostrophe as a string. -/
def apoS : String := String.mk [apoC]

/-- A date shape: 1-2 digits, slash or dash, 1-2 digits, slash or dash,
2-4 digits (group not included; wrap with `RE.group` at use sites). -/
def dateCore : RE :=
  seqL [.rep reDigit 1 2, slashDash, .rep reDigit 1 2, slashDash, .rep reDigit 2 4]

/-- `[A-Z][a-z]+` under IGNORECASE: a capitalised word, case-folded. -/
def capWord : RE := .seq letterCI (plus letterCI)

/-- Configuration of one slot: ordered pattern list and type tag
(`SLOT_DEFINITIONS` entries of `classifier.py`). -/
structure SlotDef where
  patterns : List RE
  type : String

/-- `SLOT_DEFINITIONS` of `classifier.py`, transcribed pattern by pattern.
All intent patterns are matched with `re.IGNORECASE` in the source, so the
literals and classes here are built case-insensitively. -/
def slotDefinitions : List (String × List (String × SlotDef)) :=
  [("pharmacy",
    [("medication_name",
      ⟨[seqL [alts [litCI "for", litCI "refill", litCI "get", litCI "need"], plus reWs,
              .group (.seq (plus reWord) (opt (.seq (plus reWs) (plus reWord))))],
        seqL [.group (plus reWord), plus reWs,
              alts [litCI "prescription", litCI "medication", litCI "drug"]]], "medication"⟩),
     ("quantity",
      ⟨[seqL [.group (plus reDigit), .star reWs,
              alts [litCI "day", litCI "days", litCI "month", litCI "months"],
              plus reWs, litCI "supply"],
        seqL [.group (plus reDigit), plus reWs,
              alts [litCI "pills", litCI "tablets", litCI "capsules"]]], "number"⟩),
     ("pharmacy_name",
      ⟨[seqL [alts [litCI "at", litCI "from", litCI "nearest"], plus reWs,
              .group (alts [litCI "CVS", litCI "Walgreens", litCI "Rite Aid",
                            litCI "Costco", litCI "Walmart"])],
        .group (alts [litCI "CVS", litCI "Walgreens", litCI "Rite Aid"])], "pharmacy"⟩)]),
   ("claims",
    [("claim_number",
      ⟨[seqL [litCI "claim", .star reWs,
              opt (alts [litCI "#", litCI "number", litCI "id"]), .star reWs,
              opt colonWs, .star reWs, .group (.rep reWord 8 15)],
        .group (.rep reDigit 10 15)], "claim_id"⟩),
     ("date_of_service",
      ⟨[seqL [alts [litCI "from", litCI "on", .seq (litCI "date") (opt (chrCI 'd'))],
              plus reWs, .group dateCore],
        .group (seqL [alts [litCI "Jan", litCI "Feb", litCI "Mar", litCI "Apr",
                            litCI "May", litCI "Jun", litCI "Jul", litCI "Aug",
                            litCI "Sep", litCI "Oct", litCI "Nov", litCI "Dec"],
                      .star reWord, plus reWs, .rep reDigit 1 2,
                      opt (seqL [opt (chrCI ','), plus reWs, .rep reDigit 4 4])])], "date"⟩),
     ("provider_name",
      ⟨[seqL [alts [litCI "from", litCI "at", litCI "with"], plus reWs,
              opt (seqL [litCI "Dr", opt (chrCI '.'), plus reWs]),
              .group (.seq capWord (opt (.seq (plus reWs) capWord)))],
        seqL [alts [litCI "doctor", litCI "physician", litCI "provider"], plus reWs,
              .group capWord]], "provider"⟩)]),
   ("specialist",
    [("specialty_type",
      ⟨[.group (alts [litCI "cardiologist", litCI "dermatologist", litCI "orthopedic",
                      litCI "neurologist", litCI "gastroenterologist", litCI "oncologist",
                      litCI "ENT", litCI "urologist", litCI "pulmonologist",
                      litCI "rheumatologist", litCI "endocrinologist"])], "specialty"⟩),
     ("location",
      ⟨[seqL [alts [litCI "near", litCI "in", litCI "around"], plus reWs,
              .group (seqL [capWord, opt (.seq (plus reWs) capWord),
                            opt (seqL [chrCI ',', .star reWs, .rep letterCI 2 2])])],
        seqL [alts [litCI "zip", litCI "zipcode", litCI "zip code"], .star reWs,
              opt colonWs, .star reWs, .group (.rep reDigit 5 5)]], "location"⟩)]),
   ("primaryCareProvider",
    [("doctor_name",
      ⟨[seqL [opt (seqL [litCI "Dr", opt (chrCI '.'), plus reWs]),
              .group (.seq capWord (opt (.seq (plus reWs) capWord)))],
        seqL [alts [litCI "doctor", litCI "physician"], plus reWs, .group capWord]],
       "provider"⟩),
     ("location",
      ⟨[seqL [alts [litCI "near", litCI "in", litCI "around"], plus reWs,
              .group (.seq capWord (opt (.seq (plus reWs) capWord)))],
        .group (.rep reDigit 5 5)], "location"⟩)]),
   ("deductible",
    [("plan_type",
      ⟨[seqL [.group (alts [litCI "individual", litCI "family"]), plus reWs,
              alts [litCI "deductible", litCI "plan"]],
        .group (alts [seqL [litCI "in", opt dashSpace, litCI "network"],
                      seqL [litCI "out", opt dashSpace, litCI "of", opt dashSpace,
                            litCI "network"]])], "plan_type"⟩),
     ("year",
      ⟨[seqL [alts [litCI "for", litCI "in"], plus reWs,
              .group (.seq (litCI "20") (.rep reDigit 2 2))],
        .group (alts [litCI "this year", litCI "last year", litCI "next year"])], "year"⟩)]),
   ("eligibility",
    [("member_type",
      ⟨[seqL [opt (.seq (litCI "for") (plus reWs)), opt (.seq (litCI "my") (plus reWs)),
              .group (alts [litCI "spouse", litCI "child", litCI "dependent", litCI "self"])],
        seqL [.group (alts [litCI "family", litCI "individual"]), plus reWs,
              litCI "coverage"]], "member_type"⟩),
     ("date",
      ⟨[seqL [alts [litCI "as of", litCI "on", litCI "starting"], plus reWs,
              .group dateCore]], "date"⟩)]),
   ("idCard",
    [("card_type",
      ⟨[seqL [.group (alts [litCI "digital", litCI "physical", litCI "paper",
                            litCI "temporary"]), plus reWs,
              opt (.seq (litCI "ID") (plus reWs)), litCI "card"],
        seqL [.group (alts [litCI "replacement", litCI "new"]), plus reWs,
              litCI "card"]], "card_type"⟩),
     ("member_type",
      ⟨[seqL [opt (.seq (litCI "for") (plus reWs)), opt (.seq (litCI "my") (plus reWs)),
              .group (alts [litCI "spouse", litCI "child", litCI "dependent"])]],
       "member_type"⟩)]),
   ("hsa",
    [("action",
      ⟨[.group (alts [litCI "balance", litCI "contribution", litCI "withdrawal",
                      litCI "transfer", litCI "investment"]),
        .seq (.group (alts [litCI "contribute", litCI "withdraw", litCI "transfer"]))
             (plus reWs)], "action"⟩),
     ("amount",
      ⟨[seqL [opt (chrCI '$'), .star reWs,
              .group (seqL [plus reDigit, .star (.seq (chrCI ',') (.rep reDigit 3 3)),
                            opt (.seq (chrCI '.') (.rep reDigit 2 2))])],
        seqL [.group (plus reDigit), plus reWs, litCI "dollars"]], "currency"⟩)]),
   ("appeals",
    [("claim_number",
      ⟨[seqL [litCI "claim", .star reWs, opt (alts [litCI "#", litCI "number"]),
              .star reWs, opt colonWs, .star reWs, .group (.rep reWord 8 15)]],
       "claim_id"⟩),
     ("appeal_type",
      ⟨[seqL [.group (alts [litCI "first level", litCI "second level", litCI "external",
                            litCI "expedited", litCI "urgent"]), plus reWs,
              alts [litCI "appeal", litCI "review"]]], "appeal_type"⟩)]),
   ("maternity",
    [("trimester",
      ⟨[seqL [.group (alts [litCI "first", litCI "second", litCI "third",
                            litCI "1st", litCI "2nd", litCI "3rd"]), plus reWs,
              litCI "trimester"],
        seqL [.group (plus reDigit), plus reWs, litCI "week", opt (chrCI 's'),
              plus reWs, litCI "pregnant"]], "trimester"⟩),
     ("service_type",
      ⟨[.group (alts [litCI "prenatal", litCI "delivery", litCI "postpartum",
                      litCI "ultrasound", litCI "c-section", litCI "cesarean"])],
       "service"⟩)])]

/-- Slot definitions of one intent (`self.slot_definitions.get(intent, {})`). -/
def intentSlotDefs (intent : String) : List (String × SlotDef) :=
  (dictLookup intent slotDefinitions).getD []

/-- `MULTI_INTENT_SIGNALS` of `classifier.py` (searched with IGNORECASE). -/
def multiIntentSignals : List RE :=
  [seqL [.wordB,
         alts [litCI "and also", litCI "and", litCI "also", litCI "plus",
               litCI "as well as", litCI "additionally", litCI "another thing",
               litCI "one more thing"], .wordB],
   seqL [.wordB,
         alts [litCI "oh and", litCI "btw", litCI "by the way",
               litCI ("while I" ++ apoS ++ "m here"),
               litCI ("while you" ++ apoS ++ "re at it")], .wordB],
   seqL [.wordB,
         alts [litCI "first", litCI "second", litCI "third", litCI "lastly",
               litCI "finally", litCI "next"], .wordB]]

/-- The ordered split-pattern list of `MultiIntentDetector.split_utterance`
(each applied with IGNORECASE). -/
def splitPatterns : List RE :=
  [seqL [plus reWs, litCI "and also", plus reWs],
   seqL [plus reWs, litCI "also", plus reWs],
   seqL [plus reWs, litCI "and", plus reWs, .look (.seq (chrCI 'I') (plus reWs))],
   seqL [plus reWs, litCI "plus", plus reWs],
   seqL [plus reWs, litCI "as well as", plus reWs],
   seqL [chrCS '.', plus reWs, .look letterCI],
   seqL [plus reWs, litCI "oh and", plus reWs],
   seqL [plus reWs, litCI "btw", plus reWs],
   seqL [plus reWs, litCI "by the way", plus reWs]]

/-- `MultiIntentDetector.has_multiple_intents`. -/
def hasMultipleIntents (utterance : String) : Bool :=
  multiIntentSignals.any (fun pat => reTest pat utterance.data)

/-- `MultiIntentDetector.split_utterance`: successive re-splitting by each
pattern, stripping and dropping empty parts, then keeping only segments of
at least two words. -/
def splitUtterance (utterance : String) : List String :=
  let segments := splitPatterns.foldl
    (fun segments pat =>
      segments.foldl
        (fun acc seg =>
          acc ++ (((reSplit pat seg).map stripChars).filter
            (fun p => ¬ p.isEmpty)))
        [])
    [utterance.data]
  (segments.filter (fun s => 2 ≤ (pyWords s).length)).map (fun l => String.mk l)

/-- One extracted slot value (`{"value": ..., "type": ..., "confidence": ...,
"source": "extracted"}`). -/
structure SlotValue where
  value : String
  type : String
  confidence : ℚ
  source : String
deriving DecidableEq, Repr

/-- A slot dictionary. -/
abbrev SlotMap : Type := List (String × SlotValue)

/-- The intent-specific phase of `SlotFiller.extract_slots`: for each slot
of the intent, try the patterns in order and keep the first match's first
capture group, at confidence 0.9. -/
def extractIntentSlots (utterance : String) (intent : String) : SlotMap :=
  (intentSlotDefs intent).foldl
    (fun slots nc =>
      match nc.2.patterns.findSome? (fun pat => reSearch1 pat utterance.data) with
      | some v => dictInsert slots nc.1 ⟨String.mk v, nc.2.type, 9/10, "extracted"⟩
      | none => slots)
    []

/-- The member-id pattern of `SlotFiller._extract_common_slots`
(IGNORECASE). -/
def memberIdPat : RE :=
  seqL [.alt (seqL [litCI "member", .star reWs,
                    opt (alts [litCI "id", litCI "#", litCI "number"])])
             (litCI "id"),
        .star colonWs, .group (.rep alnumCI 8 12)]

/-- The phone pattern of `_extract_common_slots` (case-sensitive). -/
def phonePat : RE :=
  .group (seqL [.rep reDigit 3 3, opt dashDot, .rep reDigit 3 3, opt dashDot,
                .rep reDigit 4 4])

/-- The generic date pattern of `_extract_common_slots` (case-sensitive). -/
def commonDatePat : RE := .group dateCore

/-- The dollar-amount pattern of `_extract_common_slots` (mandatory `$`). -/
def amountPat : RE :=
  seqL [chrCS '$', .star reWs,
        .group (seqL [plus reDigit, .star (.seq (chrCS ',') (.rep reDigit 3 3)),
                      opt (.seq (chrCS '.') (.rep reDigit 2 2))])]

/-- The zip-code pattern of `_extract_common_slots` (case-sensitive). -/
def zipPat : RE :=
  seqL [.wordB, .group (.rep reDigit 5 5),
        opt (.seq (chrCS '-') (.rep reDigit 4 4)), .wordB]

/-- `SlotFiller._extract_common_slots`, statement for statement: member id,
phone, generic date (guarded by `"date" not in slots`), dollar amount, zip
code. -/
def extractCommonSlots (utterance : String) : SlotMap :=
  let slots : SlotMap := []
  let slots := match reSearch1 memberIdPat utterance.data with
    | some v => dictInsert slots "member_id" ⟨String.mk v, "member_id", 19/20, "extracted"⟩
    | none => slots
  let slots := match reSearch1 phonePat utterance.data with
    | some v => dictInsert slots "phone" ⟨String.mk v, "phone", 9/10, "extracted"⟩
    | none => slots
  let slots := match reSearch1 commonDatePat utterance.data with
    | some v =>
      if dictContains slots "date" then slots
      else dictInsert slots "date" ⟨String.mk v, "date", 4/5, "extracted"⟩
    | none => slots
  let slots := match reSearch1 amountPat utterance.data with
    | some v => dictInsert slots "amount" ⟨String.mk v, "currency", 9/10, "extracted"⟩
    | none => slots
  let slots := match reSearch1 zipPat utterance.data with
    | some v => dictInsert slots "zip_code" ⟨String.mk v, "location", 17/20, "extracted"⟩
    | none => slots
  slots

/-- `SlotFiller.extract_slots`: intent-specific slots, then
`slots.update(common_slots)`. -/
def extractSlots (utterance : String) (intent : String) : SlotMap :=
  dictUpdate (extractIntentSlots utterance intent) (extractCommonSlots utterance)

/-- The fixed prompt table of `SlotFiller._get_slot_prompt`. -/
def slotPromptTable : List (String × String) :=
  [("medication_name", "What medication do you need help with?"),
   ("claim_number", "Can you provide the claim number?"),
   ("date_of_service", "What was the date of service?"),
   ("provider_name", "What is the provider or doctor" ++ apoS ++ "s name?"),
   ("specialty_type", "What type of specialist are you looking for?"),
   ("location", "What is your location or zip code?"),
   ("doctor_name", "What is the doctor" ++ apoS ++ "s name?"),
   ("plan_type", "Is this for individual or family coverage?"),
   ("member_type", "Is this for yourself or a dependent?"),
   ("amount", "What amount would you like to contribute/withdraw?")]

/-- `SlotFiller._get_slot_prompt`: table lookup with templated fallback. -/
def getSlotPrompt (slotName : String) : String :=
  (dictLookup slotName slotPromptTable).getD
    ("Please provide the " ++ slotName.replace "_" " " ++ ".")

/-- One entry of the missing-slot report. -/
structure MissingSlot where
  slot_name : String
  type : String
  prompt : String
deriving DecidableEq, Repr

/-- `SlotFiller.get_missing_required_slots`. -/
def getMissingRequiredSlots (intent : String) (filled : SlotMap) : List MissingSlot :=
  (intentSlotDefs intent).foldl
    (fun missing nc =>
      if dictContains filled nc.1 then missing
      else missing ++ [⟨nc.1, nc.2.type, getSlotPrompt nc.1⟩])
    []

/-! ### Vector store (`InMemoryVectorStore`) -/

/-- Metadata of one stored training utterance (`_build_kb`). -/
structure Meta where
  intent_id : String
  intent_name : String
  category : String
  agent_routing : String
  priority : Nat
  text : String
deriving DecidableEq, Repr, Inhabited

/-- Similarity of the stored entry at index `i` (read from the similarity
vector; out-of-range reads never occur for well-formed stores). -/
def simAt (sims : List ℚ) (i : Nat) : ℚ := sims.getD i 0

/-- An ascending ordering of indices by similarity with ties by index.
This is ONE total order compatible with `np.argsort`'s contract; numpy's
default sort documents no tie order, so nothing below may depend on this
choice of tie order (see `isArgsortAsc`). -/
def argRel (sims : List ℚ) (i j : Nat) : Prop :=
  simAt sims i < simAt sims j ∨ (simAt sims i = simAt sims j ∧ i ≤ j)

instance argRelDecidable (sims : List ℚ) : DecidableRel (argRel sims) :=
  fun i j =>
    inferInstanceAs
      (Decidable (simAt sims i < simAt sims j ∨ (simAt sims i = simAt sims j ∧ i ≤ j)))

instance argRelTotal (sims : List ℚ) : IsTotal Nat (argRel sims) := by
  constructor
  intro a b
  rcases lt_trichotomy (simAt sims a) (simAt sims b) with h | h | h
  · exact Or.inl (Or.inl h)
  · rcases Nat.le_total a b with hab | hba
    · exact Or.inl (Or.inr ⟨h, hab⟩)
    · exact Or.inr (Or.inr ⟨h.symm, hba⟩)
  · exact Or.inr (Or.inl h)

instance argRelTrans (sims : List ℚ) : IsTrans Nat (argRel sims) := by
  constructor
  intro a b c hab hbc
  rcases hab with h1 | ⟨h1, h1n⟩ <;> rcases hbc with h2 | ⟨h2, h2n⟩
  · exact Or.inl (h1.trans h2)
  · exact Or.inl (h2 ▸ h1)
  · exact Or.inl (h1 ▸ h2)
  · exact Or.inr ⟨h1.trans h2, h1n.trans h2n⟩

/-- The documented CONTRACT of `np.argsort(similarities)`: the result is
some permutation of the index range that arranges the similarities in
ascending order.  The order among equal similarities is unspecified
(numpy's default quicksort is not stable), so any list satisfying this
predicate is a possible argsort output, and properties of `search` that
are meant to hold of the program must hold for every such list. -/
def isArgsortAsc (sims : List ℚ) (idx : List Nat) : Prop :=
  idx.Perm (List.range sims.length)
  ∧ List.Pairwise (fun i j => simAt sims i ≤ simAt sims j) idx

instance isArgsortAscDecidable (sims : List ℚ) (idx : List Nat) :
    Decidable (isArgsortAsc sims idx) :=
  inferInstanceAs
    (Decidable (idx.Perm (List.range sims.length)
      ∧ List.Pairwise (fun i j => simAt sims i ≤ simAt sims j) idx))

/-- One fixed realization of the `np.argsort` contract (ascending, ties by
index), used to keep the downstream pipeline definitions computable.  No
theorem below depends on this tie-order choice: claim C1 quantifies over
every contract-satisfying realization, and the other claims use only
membership and emptiness of the search results. -/
def argsortAsc (sims : List ℚ) : List Nat :=
  List.insertionSort (argRel sims) (List.range sims.length)

/-- `np.argsort(similarities)[-top_k:][::-1]`. -/
def rankedIndices (sims : List ℚ) (top_k : Nat) : List Nat :=
  (takeLastPy (argsortAsc sims) top_k).reverse

/-- `InMemoryVectorStore.search` as a function of the argsort realization
`idx`: empty store short-circuits to `[]`; otherwise the metadata/score
pairs of `idx[-top_k:][::-1]`.  `sims` is the similarity vector (one
cosine score per stored entry, in insertion order). -/
def storeSearchWith (sims : List ℚ) (metadata : List Meta) (idx : List Nat)
    (top_k : Nat) : List (Meta × ℚ) :=
  if sims.isEmpty then []
  else (takeLastPy idx top_k).reverse.map
    (fun i => (metadata.getD i default, simAt sims i))

/-- `InMemoryVectorStore.search` under the fixed `argsortAsc`
realization; the rest of the pipeline is defined over this computable
instance. -/
def storeSearch (sims : List ℚ) (metadata : List Meta) (top_k : Nat) :
    List (Meta × ℚ) :=
  if sims.isEmpty then []
  else (rankedIndices sims top_k).map
    (fun i => (metadata.getD i default, simAt sims i))

/-! ### Session manager (`SessionManager`) -/

/-- One session turn (timestamp omitted: wall clock, never read by the
logic under verification). -/
structure Turn where
  utterance : String
  intent : String
  confidence : ℚ
  slots : SlotMap
  multi_intents : List String
deriving DecidableEq, Repr

/-- Session store state: per-id turn history and slot memory.  Both maps
are total functions (a `defaultdict` read of an unknown id gives the empty
value, exactly as `dict.get(id, empty)` does in the source reads). -/
structure SessionState where
  sessions : String → List Turn
  slot_memory : String → SlotMap

/-- A fresh session store. -/
def emptySessions : SessionState := ⟨fun _ => [], fun _ => []⟩

/-- `SessionManager.add`: append the turn, merge its slots into slot
memory when nonempty, and keep only the last 10 turns. -/
def sessionAdd (st : SessionState) (sid : String) (t : Turn) : SessionState :=
  let appended := st.sessions sid ++ [t]
  let mem := if t.slots.isEmpty then st.slot_memory sid
             else dictUpdate (st.slot_memory sid) t.slots
  let trimmed := if 10 < appended.length then takeLastPy appended 10 else appended
  { sessions := fun s => if s = sid then trimmed else st.sessions s,
    slot_memory := fun s => if s = sid then mem else st.slot_memory s }

/-- `SessionManager.get`: the last `n` turns. -/
def sessionGet (st : SessionState) (sid : String) (n : Nat) : List Turn :=
  takeLastPy (st.sessions sid) n

/-- `SessionManager.get_recent_intents`. -/
def getRecentIntents (st : SessionState) (sid : String) (n : Nat) : List String :=
  (sessionGet st sid n).map Turn.intent

/-! ### Embedding generator (`EmbeddingGenerator.generate`) -/

/-- The seed handed to `np.random.seed` by `generate`:
`hash(text.lower()) % (2**32)`.  `pyHash` stands for the process's string
hash, which CPython salts per process (`PYTHONHASHSEED`); it is therefore a
parameter, not a constant function. -/
def pyHashSeed (pyHash : String → Int) (text : String) : Nat :=
  ((pyHash (asciiLowerStr text)) % ((2 : Int) ^ 32)).toNat

/-- `EmbeddingGenerator.generate`: seed the PRNG with the salted hash of
the lower-cased text and read off the (normalized) sample.  `prng`
abstracts `np.random.randn(dim)` followed by L2 normalization, a
floating-point computation which is deterministic in the seed. -/
def embedGenerate (prng : Nat → List ℚ) (pyHash : String → Int)
    (text : String) : List ℚ :=
  prng (pyHashSeed pyHash text)

/-! ### Classifier (`LocalIntentClassifier`) -/

/-- Classifier state: the stored entries, the abstract similarity map (one
score per entry for each query text) and the session store. -/
structure Classifier where
  entries : List Meta
  simTo : String → List ℚ
  sess : SessionState

/-- Result dict of `_classify_single`; the optional fields are added later
by `_apply_context_boost` (absent keys are `none`). -/
structure BaseResult where
  intent : String
  intent_id : String
  agent_routing : String
  category : String
  priority : Nat
  confidence : ℚ
  top_match_score : ℚ
  original_intent : Option String := none
  original_confidence : Option ℚ := none
  context_boosted : Option Bool := none
  context_match : Option String := none
  context_applied : Option Bool := none
deriving DecidableEq, Repr

/-- The fallback metadata dict of `_classify_single` (it carries only the
four keys below in the source; `intent_name`/`text` are never read from
it and are modelled as empty strings). -/
def unknownMeta : Meta :=
  { intent_id := "UNK", intent_name := "", category := "unknown",
    agent_routing := "FallbackAgent", priority := 5, text := "" }

/-- One `votes[...] += score` step on the vote dict. -/
def voteAdd (votes : List (String × ℚ)) (name : String) (score : ℚ) :
    List (String × ℚ) :=
  if dictContains votes name then
    votes.map (fun kv => if kv.1 = name then (kv.1, kv.2 + score) else kv)
  else votes ++ [(name, score)]

/-- Python's `max(votes, key=votes.get)` over dict iteration (insertion)
order: the first key of maximal value; `none` on an empty dict. -/
def maxByValue (votes : List (String × ℚ)) : Option String :=
  (votes.foldl
    (fun best kv =>
      match best with
      | none => some kv
      | some b => if b.2 < kv.2 then some kv else some b)
    none).map Prod.fst

/-- `LocalIntentClassifier._classify_single`, downstream of the similarity
vector: top-10 search, score-sum vote over the top 5, argmax intent,
fallback metadata, confidence from the top-3 hits of the winning intent. -/
def classifySingle (sims : List ℚ) (entries : List Meta) : BaseResult :=
  let results := storeSearch sims entries 10
  let votes := (results.take 5).foldl
    (fun acc ms => voteAdd acc ms.1.intent_name ms.2) []
  let best_intent := match maxByValue votes with
    | some k => k
    | none => "unknown"
  let best_meta := match results.find? (fun ms => ms.1.intent_name == best_intent) with
    | some ms => ms.1
    | none => unknownMeta
  let matching := ((results.take 3).filter
    (fun ms => ms.1.intent_name == best_intent)).map Prod.snd
  let confidence := pyRound3
    (if matching.isEmpty then 1/2 else matching.sum / (matching.length : ℚ))
  { intent := best_intent,
    intent_id := best_meta.intent_id,
    agent_routing := best_meta.agent_routing,
    category := best_meta.category,
    priority := best_meta.priority,
    confidence := confidence,
    top_match_score := match results with | r :: _ => r.2 | [] => 0 }

/-- One ranked candidate (`get_candidates` output rows). -/
structure Candidate where
  intent : String
  intent_id : String
  agent : String
  category : String
  score : ℚ
deriving DecidableEq, Repr

/-- Descending-by-score order used to model Python's stable
`sorted(..., key=score, reverse=True)`; insertion sort under this
non-strict relation is stable, as is Python's sort. -/
def candRel (a b : String × ℚ) : Prop := b.2 ≤ a.2

instance candRelDecidable : DecidableRel candRel :=
  fun a b => inferInstanceAs (Decidable (b.2 ≤ a.2))

/-- `LocalIntentClassifier.get_candidates`: top-20 search, per-intent score
lists and first-seen metadata, average score per intent, stable descending
sort, top-k, rounded scores. -/
def getCandidates (c : Classifier) (utterance : String) (top_k : Nat) :
    List Candidate :=
  let results := storeSearch (c.simTo utterance) c.entries 20
  let intent_scores : List (String × List ℚ) := results.foldl
    (fun acc ms =>
      if dictContains acc ms.1.intent_name then
        acc.map (fun kv =>
          if kv.1 = ms.1.intent_name then (kv.1, kv.2 ++ [ms.2]) else kv)
      else acc ++ [(ms.1.intent_name, [ms.2])])
    []
  let intent_meta : List (String × Meta) := results.foldl
    (fun acc ms =>
      if dictContains acc ms.1.intent_name then acc
      else acc ++ [(ms.1.intent_name, ms.1)])
    []
  let intent_avg := intent_scores.map
    (fun kv => (kv.1, kv.2.sum / (kv.2.length : ℚ)))
  let sorted := (List.insertionSort candRel intent_avg).take top_k
  sorted.map (fun kv =>
    let m := (dictLookup kv.1 intent_meta).getD default
    { intent := kv.1, intent_id := m.intent_id, agent := m.agent_routing,
      category := m.category, score := pyRound3 kv.2 })

/-! ### Disambiguation engine (`DisambiguationEngine`) -/

/-- `INTENT_DESCRIPTIONS` of `DisambiguationEngine`. -/
def intentDescriptions : List (String × String) :=
  [("pharmacy", "prescription or medication refills"),
   ("precert", "prior authorization for a procedure"),
   ("claims", "claim status or submission"),
   ("benefits", "coverage and benefit information"),
   ("eligibility", "enrollment or coverage status"),
   ("deductible", "deductible amount or status"),
   ("copay", "copay amounts"),
   ("coinsurance", "coinsurance percentages"),
   ("outOfPocketMax", "out-of-pocket maximum"),
   ("idCard", "insurance ID card"),
   ("primaryCareProvider", "primary care doctor (PCP)"),
   ("specialist", "specialist referral or search"),
   ("urgentCare", "urgent care locations"),
   ("emergencyRoom", "emergency room coverage"),
   ("telemedicine", "virtual or telehealth visits"),
   ("behavioralHealth", "mental health services"),
   ("behavioralEmergency", "mental health crisis support"),
   ("dental", "dental coverage"),
   ("vision", "vision coverage"),
   ("hsa", "Health Savings Account (HSA)"),
   ("fsa", "Flexible Spending Account (FSA)"),
   ("hra", "Health Reimbursement Arrangement (HRA)"),
   ("appeals", "appeal a claim denial"),
   ("maternity", "pregnancy and maternity coverage"),
   ("24HourNurseLine", "24-hour nurse advice line")]

/-- `INTENT_DESCRIPTIONS.get(intent, intent)`. -/
def describeIntent (intent : String) : String :=
  (dictLookup intent intentDescriptions).getD intent

/-- One option of a disambiguation offer. -/
structure DisOption where
  option_number : Nat
  intent : String
  description : String
  agent : String
deriving DecidableEq, Repr

/-- A disambiguation offer (`generate_disambiguation` result dict; absent
keys are `none` / `[]`). -/
structure DisambiguationOffer where
  needed : Bool
  reason : Option String := none
  prompt : Option String := none
  options : List DisOption := []
  original_utterance : Option String := none
deriving DecidableEq, Repr

/-- `DisambiguationEngine.generate_disambiguation`: fewer than two
candidates or a gap above 0.15 means no disambiguation; otherwise up to
three described options and a synthesized question. -/
def generateDisambiguation (candidates : List Candidate) (utterance : String) :
    DisambiguationOffer :=
  match candidates with
  | c0 :: c1 :: _ =>
    if 3/20 < c0.score - c1.score then { needed := false, reason := some "clear_winner" }
    else
      let options := (candidates.take 3).enum.map
        (fun ic => ⟨ic.1 + 1, ic.2.intent, describeIntent ic.2.intent, ic.2.agent⟩)
      let descs := options.map DisOption.description
      let prompt :=
        if options.length = 2 then
          "I want to make sure I help you correctly. Are you asking about "
            ++ descs.getD 0 "" ++ " or " ++ descs.getD 1 "" ++ "?"
        else
          "I want to make sure I understand. Are you asking about "
            ++ descs.getD 0 "" ++ ", " ++ descs.getD 1 "" ++ ", or "
            ++ descs.getD 2 "" ++ "?"
      { needed := true, reason := some "ambiguous_intent", prompt := some prompt,
        options := options, original_utterance := some utterance }
  | _ => { needed := false }

/-! ### Context boost and full classification -/

/-- The continuation cue list of `_apply_context_boost`. -/
def continuationSignals : List String :=
  ["also", "and", "what about", "how about", "another",
   "same", "that", "this", "it", "more"]

/-- `any(sig in utterance_lower for sig in continuation_signals)`:
substring containment against the lower-cased utterance. -/
def hasContinuation (utterance : String) : Bool :=
  continuationSignals.any
    (fun sig => isSubstring sig.data (asciiLowerStr utterance).data)

/-- `len(utterance.split()) <= 4`. -/
def isShortUtterance (utterance : String) : Bool :=
  (pyWords utterance.data).length ≤ 4

/-- `LocalIntentClassifier._apply_context_boost`: with nonempty recent
history and (cue or short utterance) and confidence below 0.8, switch to
the first of the top-5 candidates whose intent is among the last 3 session
intents, boosting confidence by 0.15 (cue) or 0.10 (short only), capped at
0.95. -/
def applyContextBoost (c : Classifier) (result : BaseResult)
    (utterance : String) (sid : String) : BaseResult :=
  let recent_intents := getRecentIntents c.sess sid 3
  if recent_intents.isEmpty then { result with context_applied := some false }
  else if (hasContinuation utterance || isShortUtterance utterance) = true
      ∧ result.confidence < 4/5 then
    match (getCandidates c utterance 5).find?
        (fun cand => recent_intents.contains cand.intent) with
    | some cand =>
      { result with
        original_intent := some result.intent,
        original_confidence := some result.confidence,
        intent := cand.intent,
        confidence := min (19/20)
          (result.confidence + (if hasContinuation utterance then 3/20 else 1/10)),
        context_boosted := some true,
        context_match := some cand.intent,
        context_applied := some true }
    | none => { result with context_applied := some true, context_boosted := some false }
  else { result with context_applied := some true, context_boosted := some false }

/-- One row of the `multi_intents` list. -/
structure MultiIntentEntry where
  segment : String
  intent : String
  confidence : ℚ
  agent : String
deriving DecidableEq, Repr

/-- The full result dict built by `classify` (`processing_time_ms`
omitted: wall clock). -/
structure FinalResult extends BaseResult where
  slots : SlotMap
  merged_slots : SlotMap
  missing_slots : List MissingSlot
  slot_filling_complete : Bool
  multi_intents : Option (List MultiIntentEntry)
  has_multi_intents : Bool
  disambiguation : DisambiguationOffer
  needs_disambiguation : Bool
  candidates : List Candidate
deriving DecidableEq, Repr

/-- `LocalIntentClassifier.classify`: multi-intent detection, primary
classification, optional context boost, slot filling and merge, missing
slots, disambiguation check, result assembly and session update.  Returns
the result together with the updated classifier state. -/
def classify (c : Classifier) (utterance : String) (sid : String)
    (context_aware : Bool) : FinalResult × Classifier :=
  let multi_intents : List MultiIntentEntry :=
    if hasMultipleIntents utterance then
      let segments := splitUtterance utterance
      if 1 < segments.length then
        segments.map (fun seg =>
          let r := classifySingle (c.simTo seg) c.entries
          { segment := seg, intent := r.intent, confidence := r.confidence,
            agent := r.agent_routing })
      else []
    else []
  let result := classifySingle (c.simTo utterance) c.entries
  let result := if context_aware then applyContextBoost c result utterance sid
                else result
  let slots := extractSlots utterance result.intent
  let session_slots := c.sess.slot_memory sid
  let merged_slots := dictUpdate session_slots slots
  let missing_slots := getMissingRequiredSlots result.intent merged_slots
  let candidates := getCandidates c utterance 3
  let disambiguation := generateDisambiguation candidates utterance
  let final : FinalResult :=
    { result with
      slots := slots,
      merged_slots := merged_slots,
      missing_slots := missing_slots,
      slot_filling_complete := missing_slots.isEmpty,
      multi_intents := if multi_intents.isEmpty then none else some multi_intents,
      has_multi_intents := 1 < multi_intents.length,
      disambiguation := disambiguation,
      needs_disambiguation := disambiguation.needed,
      candidates := candidates }
  let sess2 := sessionAdd c.sess sid
    { utterance := utterance, intent := result.intent,
      confidence := result.confidence, slots := slots,
      multi_intents := multi_intents.map MultiIntentEntry.intent }
  (final, { c with sess := sess2 })

/-- Result dict of `handle_disambiguation_response` (absent keys `none`). -/
structure DisambResponse where
  error : Option String := none
  status : Option String := none
  selected_option : Option Int := none
  session_id : Option String := none
deriving DecidableEq, Repr

/-- `LocalIntentClassifier.handle_disambiguation_response`: empty history
reports the `"No disambiguation pending"` error; otherwise a resolved
confirmation (no range validation happens here). -/
def handleDisambiguationResponse (c : Classifier) (sid : String)
    (selectedOption : Int) : DisambResponse :=
  if (sessionGet c.sess sid 1).isEmpty then
    { error := some "No disambiguation pending" }
  else
    { status := some "disambiguation_resolved",
      selected_option := some selectedOption, session_id := some sid }

/-! ### Skill layer (`skill.py`) -/

/-- Outcome of `skill.resolve_disambiguation`.  On a valid selection the
source calls `SessionManager.add(..., disambiguation_resolved=True)`, a
keyword `add` does not accept, so CPython raises `TypeError` before the
success dict is built; that unhandled exception is the `typeErrorRaised`
outcome. -/
inductive ResolveOutcome : Type where
  | errorResp (msg : String) : ResolveOutcome
  | typeErrorRaised : ResolveOutcome
deriving DecidableEq, Repr

/-- `skill.resolve_disambiguation`: re-pull the top-3 candidates for the
original utterance, report an error for an out-of-range selection, and
otherwise hit the `TypeError` described above. -/
def resolveDisambiguation (c : Classifier) (_conversationId : String)
    (selectedOption : Int) (originalUtterance : String) : ResolveOutcome :=
  let candidates := getCandidates c originalUtterance 3
  if selectedOption < 1 ∨ (candidates.length : Int) < selectedOption then
    .errorResp ("Invalid option. Please select 1-" ++ toString candidates.length)
  else
    .typeErrorRaised

/-! ### Helper lemmas -/

lemma takeLastPy_sublist {α : Type} (l : List α) (k : Nat) :
    (takeLastPy l k).Sublist l := by
  unfold takeLastPy
  split
  · exact List.Sublist.refl l
  · exact List.drop_sublist _ l

lemma length_takeLastPy_le {α : Type} (l : List α) (k : Nat) (hk : 1 ≤ k) :
    (takeLastPy l k).length ≤ k := by
  unfold takeLastPy
  rw [if_neg (by omega), List.length_drop]
  omega

lemma char_ofNat_toNat (n : Nat) (h : n.isValidChar) : (Char.ofNat n).toNat = n := by
  unfold Char.ofNat
  rw [dif_pos h]
  rfl

/-! ### Claim C1: ranking behaviour of `InMemoryVectorStore.search` -/

lemma argsortAsc_sorted (sims : List ℚ) :
    List.Sorted (argRel sims) (argsortAsc sims) :=
  List.sorted_insertionSort _ _

/-- The fixed computable realization does satisfy the `np.argsort`
contract, so the downstream pipeline definitions describe one possible
behaviour of the program. -/
lemma argsortAsc_isArgsortAsc (sims : List ℚ) :
    isArgsortAsc sims (argsortAsc sims) := by
  constructor
  · exact List.perm_insertionSort _ _
  · refine (argsortAsc_sorted sims).imp ?_
    intro a b hab
    rcases hab with hlt | ⟨heq, -⟩
    · exact le_of_lt hlt
    · exact le_of_eq heq

/-- `storeSearch` is `storeSearchWith` at the fixed realization. -/
lemma storeSearch_eq_with (sims : List ℚ) (metadata : List Meta) (k : Nat) :
    storeSearch sims metadata k
      = storeSearchWith sims metadata (argsortAsc sims) k := rfl

lemma mem_argsortAsc {sims : List ℚ} {i : Nat} (h : i ∈ argsortAsc sims) :
    i < sims.length := by
  have hm := (List.perm_insertionSort (argRel sims) (List.range sims.length)).mem_iff.mp h
  simpa using hm

lemma mem_rankedIndices {sims : List ℚ} {k i : Nat} (h : i ∈ rankedIndices sims k) :
    i < sims.length := by
  unfold rankedIndices at h
  rw [List.mem_reverse] at h
  exact mem_argsortAsc ((takeLastPy_sublist _ _).subset h)

/-- C1, counterexample.  The claim asserts that ties among equal scores
are returned in original insertion order and that at most `k` results come
back for every `k`.  Neither is a guarantee of the program: `np.argsort`'s
default sort documents no tie order, so any ascending index permutation is
a possible output.  `[0, 1]` is such a permutation for two entries of
equal similarity (and the one numpy in fact produces on a 2-element
array), and under it search returns the LATER insertion first; moreover
with `k = 0` the Python slice `[-0:]` returns the whole index under every
realization, so 2 results come back where the claim allows 0. -/
theorem claim_C1_counterexample :
    isArgsortAsc [1/2, 1/2] [0, 1]
    ∧ ((storeSearchWith [1/2, 1/2]
        [⟨"A", "a", "cat", "AgentA", 1, "ta"⟩, ⟨"B", "b", "cat", "AgentB", 1, "tb"⟩]
        [0, 1] 10).map (fun p => p.1.intent_name) = ["b", "a"]
      ∧ ("a" : String) ≠ "b")
    ∧ (storeSearchWith [1/2, 1/2]
        [⟨"A", "a", "cat", "AgentA", 1, "ta"⟩, ⟨"B", "b", "cat", "AgentB", 1, "tb"⟩]
        [0, 1] 0).length = 2 := by
  decide

/-- C1, amended: for every similarity assignment, every index list
satisfying `np.argsort`'s contract, and every `k ≥ 1`, `search` returns at
most `k` (metadata, score) pairs, ordered by non-increasing cosine
similarity; the order among equal scores is whatever the argsort
realization induces — the program guarantees no particular tie order, and
in particular not insertion order.  An empty index yields the empty list,
not an error. -/
theorem claim_C1_amended (sims : List ℚ) (metadata : List Meta) (idx : List Nat)
    (k : Nat) (hidx : isArgsortAsc sims idx) (hk : 1 ≤ k) :
    (storeSearchWith sims metadata idx k).length ≤ k
    ∧ List.Pairwise (fun p q : Meta × ℚ => q.2 ≤ p.2)
        (storeSearchWith sims metadata idx k)
    ∧ (sims = [] → storeSearchWith sims metadata idx k = []) := by
  refine ⟨?_, ?_, ?_⟩
  · unfold storeSearchWith
    split
    · simp
    · rw [List.length_map, List.length_reverse]
      exact length_takeLastPy_le _ _ hk
  · unfold storeSearchWith
    split
    · exact List.Pairwise.nil
    · rw [List.pairwise_map, List.pairwise_reverse]
      exact List.Pairwise.sublist (takeLastPy_sublist _ _) hidx.2
  · intro h
    subst h
    rfl

/-- C1, witness for the amended theorem at a concrete input. -/
theorem claim_C1_witness :
    (isArgsortAsc [7/10, 3/10] [1, 0] ∧ 1 ≤ 10)
    ∧ ((storeSearchWith [7/10, 3/10] [⟨"A", "a", "c", "GA", 1, "ta"⟩,
          ⟨"B", "b", "c", "GB", 1, "tb"⟩] [1, 0] 10).length ≤ 10
      ∧ List.Pairwise (fun p q : Meta × ℚ => q.2 ≤ p.2)
          (storeSearchWith [7/10, 3/10] [⟨"A", "a", "c", "GA", 1, "ta"⟩,
            ⟨"B", "b", "c", "GB", 1, "tb"⟩] [1, 0] 10)
      ∧ ([7/10, 3/10] = ([] : List ℚ) → storeSearchWith [7/10, 3/10]
          [⟨"A", "a", "c", "GA", 1, "ta"⟩, ⟨"B", "b", "c", "GB", 1, "tb"⟩]
          [1, 0] 10 = [])) :=
  ⟨⟨by decide, by decide⟩,
   claim_C1_amended [7/10, 3/10]
     [⟨"A", "a", "c", "GA", 1, "ta"⟩, ⟨"B", "b", "c", "GB", 1, "tb"⟩]
     [1, 0] 10 (by decide) (by decide)⟩

/-! ### Claim C2: slot collision behaviour of `extract_slots` -/

lemma dictLookup_map_replace {α : Type} (d : List (String × α)) (k : String) (v : α)
    (hmem : dictContains d k = true) :
    dictLookup k (d.map (fun kv => if kv.1 = k then (k, v) else kv)) = some v := by
  induction d with
  | nil => simp [dictContains] at hmem
  | cons hd tl ih =>
    by_cases h : hd.1 = k
    · simp [dictLookup, h]
    · have htl : dictContains tl k = true := by
        simp only [dictContains, List.any_cons, Bool.or_eq_true, beq_iff_eq] at hmem
        rcases hmem with h1 | h1
        · exact absurd h1 h
        · simpa [dictContains] using h1
      simp [dictLookup, h, ih htl]

lemma dictLookup_append_single {α : Type} (d : List (String × α)) (k : String) (v : α)
    (h : dictContains d k = false) :
    dictLookup k (d ++ [(k, v)]) = some v := by
  induction d with
  | nil => simp [dictLookup]
  | cons hd tl ih =>
    simp only [dictContains, List.any_cons, Bool.or_eq_false_iff, beq_eq_false_iff_ne] at h
    obtain ⟨h1, h2⟩ := h
    simp only [List.cons_append, dictLookup, if_neg h1]
    exact ih (by simpa [dictContains] using h2)

lemma dictLookup_dictInsert_self {α : Type} (d : List (String × α)) (k : String) (v : α) :
    dictLookup k (dictInsert d k v) = some v := by
  unfold dictInsert
  split
  · exact dictLookup_map_replace d k v (by assumption)
  · rename_i h
    exact dictLookup_append_single d k v (by simpa using h)

lemma dictLookup_map_replace_ne {α : Type} (d : List (String × α)) (k k2 : String)
    (v : α) (h : k ≠ k2) :
    dictLookup k (d.map (fun kv => if kv.1 = k2 then (k2, v) else kv))
      = dictLookup k d := by
  induction d with
  | nil => rfl
  | cons hd tl ih =>
    by_cases h2 : hd.1 = k2
    · simp only [List.map_cons, if_pos h2, dictLookup]
      rw [if_neg (fun e => h e.symm), if_neg (fun e => h (h2 ▸ e).symm)]
      exact ih
    · simp only [List.map_cons, if_neg h2, dictLookup]
      split
      · rfl
      · exact ih

lemma dictLookup_append_single_ne {α : Type} (d : List (String × α)) (k k2 : String)
    (v : α) (h : k ≠ k2) :
    dictLookup k (d ++ [(k2, v)]) = dictLookup k d := by
  induction d with
  | nil =>
    show dictLookup k [(k2, v)] = none
    simp only [dictLookup, if_neg (fun e : k2 = k => h e.symm)]
  | cons hd tl ih =>
    simp only [List.cons_append, dictLookup]
    split
    · rfl
    · exact ih

lemma dictLookup_dictInsert_ne {α : Type} (d : List (String × α)) (k k2 : String)
    (v : α) (h : k ≠ k2) :
    dictLookup k (dictInsert d k2 v) = dictLookup k d := by
  unfold dictInsert
  split
  · exact dictLookup_map_replace_ne d k k2 v h
  · exact dictLookup_append_single_ne d k k2 v h

lemma dictUpdate_cons {α : Type} (d1 : List (String × α)) (kv : String × α)
    (tl : List (String × α)) :
    dictUpdate d1 (kv :: tl) = dictUpdate (dictInsert d1 kv.1 kv.2) tl := rfl

lemma dictLookup_dictUpdate_notin {α : Type} (d1 d2 : List (String × α)) (k : String)
    (h : ∀ p ∈ d2, p.1 ≠ k) :
    dictLookup k (dictUpdate d1 d2) = dictLookup k d1 := by
  induction d2 generalizing d1 with
  | nil => rfl
  | cons hd tl ih =>
    rw [dictUpdate_cons, ih _ (fun p hp => h p (List.mem_cons_of_mem _ hp))]
    exact dictLookup_dictInsert_ne _ _ _ _
      (fun e => h hd (List.mem_cons_self _ _) e.symm)

lemma dictLookup_dictUpdate_uniq {α : Type} (d1 d2 : List (String × α)) (k : String)
    (v : α) (huniq : d2.Pairwise (fun a b => a.1 ≠ b.1))
    (hfind : dictLookup k d2 = some v) :
    dictLookup k (dictUpdate d1 d2) = some v := by
  induction d2 generalizing d1 with
  | nil => simp [dictLookup] at hfind
  | cons hd tl ih =>
    rw [List.pairwise_cons] at huniq
    by_cases h : hd.1 = k
    · have hv : hd.2 = v := by
        simp only [dictLookup, if_pos h] at hfind
        exact Option.some.inj hfind
      rw [dictUpdate_cons,
        dictLookup_dictUpdate_notin _ _ _
          (fun p hp e => (huniq.1 p hp) (h.trans e.symm))]
      rw [← h, ← hv]
      exact dictLookup_dictInsert_self d1 hd.1 hd.2
    · rw [dictUpdate_cons]
      have hfind2 : dictLookup k tl = some v := by
        simp only [dictLookup, if_neg h] at hfind
        exact hfind
      exact ih _ huniq.2 hfind2

lemma keysUniq_dictInsert {α : Type} (d : List (String × α)) (k : String) (v : α)
    (h : d.Pairwise (fun a b => a.1 ≠ b.1)) :
    (dictInsert d k v).Pairwise (fun a b => a.1 ≠ b.1) := by
  unfold dictInsert
  split
  · rw [List.pairwise_map]
    refine h.imp ?_
    intro a b hab
    have key : ∀ x : String × α, ((if x.1 = k then (k, v) else x)).1 = x.1 := by
      intro x
      split
      · rename_i e
        exact e.symm
      · rfl
    rw [key a, key b]
    exact hab
  · rename_i hcon
    rw [List.pairwise_append]
    refine ⟨h, List.pairwise_singleton _ _, ?_⟩
    intro a ha b hb e
    simp only [List.mem_singleton] at hb
    subst hb
    exact hcon (by
      simp only [dictContains, List.any_eq_true, beq_iff_eq]
      exact ⟨a, ha, e⟩)

lemma commonSlots_keysUniq (u : String) :
    (extractCommonSlots u).Pairwise (fun a b => a.1 ≠ b.1) := by
  unfold extractCommonSlots
  dsimp only
  repeat' split
  all_goals
    repeat
      first
      | exact List.Pairwise.nil
      | apply keysUniq_dictInsert

/-- C2, counterexample.  On `"starting 1/2/23"` for the `eligibility`
intent, the intent-specific pass fills `date` at confidence 0.9, but the
later `slots.update(common_slots)` call overwrites it with the common
extraction at confidence 0.8 — the final value is NOT the intent-specific
one, contradicting the claim. -/
theorem claim_C2_counterexample :
    dictLookup "date" (extractSlots "starting 1/2/23" "eligibility")
        = some ⟨"1/2/23", "date", 4/5, "extracted"⟩
      ∧ dictLookup "date" (extractIntentSlots "starting 1/2/23" "eligibility")
        = some ⟨"1/2/23", "date", 9/10, "extracted"⟩
      ∧ ((4 : ℚ)/5 ≠ 9/10) := by
  set_option maxRecDepth 4000 in decide

/-- C2, amended: on a name collision the COMMON slot wins, not the
intent-specific one: whenever the intent-agnostic pass extracts a slot
name, that extraction is the value `extract_slots` returns for the name,
overwriting any intent-specific value. -/
theorem claim_C2_amended (u i name : String) (v : SlotValue)
    (h : dictLookup name (extractCommonSlots u) = some v) :
    dictLookup name (extractSlots u i) = some v := by
  unfold extractSlots
  exact dictLookup_dictUpdate_uniq _ _ _ _ (commonSlots_keysUniq u) h

/-- C2, witness for the amended theorem at the counterexample input. -/
theorem claim_C2_witness :
    dictLookup "date" (extractCommonSlots "starting 1/2/23")
        = some ⟨"1/2/23", "date", 4/5, "extracted"⟩
      ∧ dictLookup "date" (extractSlots "starting 1/2/23" "eligibility")
        = some ⟨"1/2/23", "date", 4/5, "extracted"⟩ :=
  ⟨by set_option maxRecDepth 4000 in decide,
   claim_C2_amended "starting 1/2/23" "eligibility" "date"
     ⟨"1/2/23", "date", 4/5, "extracted"⟩
     (by set_option maxRecDepth 4000 in decide)⟩

/-! ### Claim C3: confidence bounds -/

lemma roundHalfEven_bounds (q : ℚ) (h0 : 0 ≤ q) (h1 : q ≤ 1000) :
    0 ≤ roundHalfEven q ∧ roundHalfEven q ≤ 1000 := by
  unfold roundHalfEven
  have hf0 : (0 : ℤ) ≤ ⌊q⌋ := Int.floor_nonneg.mpr h0
  have hf1 : ⌊q⌋ ≤ 1000 := by
    have hle := Int.floor_le_floor h1
    simpa using hle
  have hstep : ¬ (q - (⌊q⌋ : ℚ) < 1/2) → ⌊q⌋ < 1000 := by
    intro hnlt
    have hq : (⌊q⌋ : ℚ) < q := by
      have : (1 : ℚ)/2 ≤ q - (⌊q⌋ : ℚ) := le_of_not_lt hnlt
      linarith
    have : (⌊q⌋ : ℚ) < 1000 := lt_of_lt_of_le hq h1
    exact_mod_cast this
  dsimp only
  split
  · exact ⟨hf0, hf1⟩
  · rename_i hnlt
    split
    · exact ⟨by omega, by have := hstep hnlt; omega⟩
    · split
      · exact ⟨hf0, hf1⟩
      · exact ⟨by omega, by have := hstep hnlt; omega⟩

lemma pyRound3_bounds (q : ℚ) (h0 : 0 ≤ q) (h1 : q ≤ 1) :
    0 ≤ pyRound3 q ∧ pyRound3 q ≤ 1 := by
  unfold pyRound3
  obtain ⟨ha, hb⟩ := roundHalfEven_bounds (q * 1000) (by linarith) (by linarith)
  constructor
  · apply div_nonneg _ (by norm_num)
    exact_mod_cast ha
  · rw [div_le_one (by norm_num)]
    exact_mod_cast hb

lemma sum_bounds_unit (l : List ℚ) (h : ∀ x ∈ l, 0 ≤ x ∧ x ≤ 1) :
    0 ≤ l.sum ∧ l.sum ≤ (l.length : ℚ) := by
  induction l with
  | nil => simp
  | cons hd tl ih =>
    obtain ⟨h1, h2⟩ := h hd (List.mem_cons_self _ _)
    obtain ⟨h3, h4⟩ := ih (fun x hx => h x (List.mem_cons_of_mem _ hx))
    simp only [List.sum_cons, List.length_cons]
    push_cast
    constructor <;> linarith

lemma storeSearch_score_bounds {sims : List ℚ} {entries : List Meta} {k : Nat}
    (h : ∀ s ∈ sims, 0 ≤ s ∧ s ≤ 1) :
    ∀ p ∈ storeSearch sims entries k, 0 ≤ p.2 ∧ p.2 ≤ 1 := by
  intro p hp
  unfold storeSearch at hp
  split at hp
  · simp at hp
  · rw [List.mem_map] at hp
    obtain ⟨i, hi, rfl⟩ := hp
    have hlt := mem_rankedIndices hi
    have hmem : simAt sims i ∈ sims := by
      unfold simAt
      rw [List.getD_eq_getElem _ _ hlt]
      exact List.getElem_mem hlt
    exact h _ hmem

lemma mean_clause_bounds (matching : List ℚ) (hm : ∀ x ∈ matching, 0 ≤ x ∧ x ≤ 1) :
    0 ≤ pyRound3 (if matching.isEmpty then 1/2
        else matching.sum / (matching.length : ℚ))
    ∧ pyRound3 (if matching.isEmpty then 1/2
        else matching.sum / (matching.length : ℚ)) ≤ 1 := by
  apply pyRound3_bounds
  · split
    · norm_num
    · rename_i hne
      obtain ⟨hs, _⟩ := sum_bounds_unit matching hm
      have hlen : (0 : ℚ) ≤ (matching.length : ℚ) := by positivity
      exact div_nonneg hs hlen
  · split
    · norm_num
    · rename_i hne
      obtain ⟨_, hs⟩ := sum_bounds_unit matching hm
      have hpos : (0 : ℚ) < (matching.length : ℚ) := by
        have : matching ≠ [] := by
          simpa [List.isEmpty_iff] using hne
        have : 0 < matching.length := List.length_pos.mpr this
        exact_mod_cast this
      rw [div_le_one hpos]
      exact hs

lemma classifySingle_confidence_bounds (sims : List ℚ) (entries : List Meta)
    (h : ∀ s ∈ sims, 0 ≤ s ∧ s ≤ 1) :
    0 ≤ (classifySingle sims entries).confidence
      ∧ (classifySingle sims entries).confidence ≤ 1 := by
  obtain ⟨m, hmem, hconf⟩ :
      ∃ m : List ℚ,
        (∀ x ∈ m, 0 ≤ x ∧ x ≤ 1)
        ∧ (classifySingle sims entries).confidence
            = pyRound3 (if m.isEmpty then 1/2 else m.sum / (m.length : ℚ)) := by
    refine ⟨_, ?_, rfl⟩
    intro x hx
    rw [List.mem_map] at hx
    obtain ⟨p, hp, rfl⟩ := hx
    rw [List.mem_filter] at hp
    have hpr : p ∈ storeSearch sims entries 10 :=
      List.take_subset _ _ hp.1
    exact storeSearch_score_bounds h p hpr
  rw [hconf]
  exact mean_clause_bounds m hmem

lemma applyContextBoost_confidence_cases (c : Classifier) (result : BaseResult)
    (utterance sid : String) (hres : result.context_boosted = none) :
    ((applyContextBoost c result utterance sid).context_boosted = some true
      ∧ (applyContextBoost c result utterance sid).confidence
          = min (19/20)
              (result.confidence + (if hasContinuation utterance then 3/20 else 1/10)))
    ∨ ((applyContextBoost c result utterance sid).context_boosted ≠ some true
      ∧ (applyContextBoost c result utterance sid).confidence = result.confidence) := by
  unfold applyContextBoost
  dsimp only
  split
  · right
    constructor
    · simp [hres]
    · rfl
  · split
    · split
      · left
        exact ⟨rfl, rfl⟩
      · right
        exact ⟨by simp, rfl⟩
    · right
      exact ⟨by simp, rfl⟩

/-- C3, counterexample.  With three stored entries of one intent and every
similarity score equal to 0.99 (a legitimate cosine value in `[0, 1]`), the
final confidence of `classify` is 0.99 > 0.95: the 0.95 cap is applied only
inside the context-boost branch, so the claimed bound `confidence ≤ 0.95`
on the final result is false. -/
theorem claim_C3_counterexample :
    (∀ s ∈ [(99 : ℚ)/100, 99/100, 99/100], 0 ≤ s ∧ s ≤ 1)
    ∧ (19 : ℚ)/20
        < ((classify
            ⟨[⟨"A1", "a", "c", "GA", 1, "t1"⟩, ⟨"A2", "a", "c", "GA", 1, "t2"⟩,
              ⟨"A3", "a", "c", "GA", 1, "t3"⟩],
              fun _ => [99/100, 99/100, 99/100], emptySessions⟩
            "x" "s" true).1).confidence := by
  set_option maxRecDepth 8000 in decide

/-- C3, amended: when every similarity score lies in `[0, 1]` (the range of
cosine similarity the spec itself assumes), the base confidence of
`_classify_single` lies in `[0, 1]`; after `_apply_context_boost`, the
confidence is in `[0, 0.95]` WHEN the boost actually switched the result,
and otherwise it is exactly the (uncapped) base confidence. -/
theorem claim_C3_amended (sims : List ℚ) (entries : List Meta)
    (hsims : ∀ s ∈ sims, 0 ≤ s ∧ s ≤ 1) :
    (0 ≤ (classifySingle sims entries).confidence
      ∧ (classifySingle sims entries).confidence ≤ 1)
    ∧ ∀ (c : Classifier) (utterance sid : String),
        ((applyContextBoost c (classifySingle sims entries) utterance sid).context_boosted
            = some true →
          0 ≤ (applyContextBoost c (classifySingle sims entries) utterance sid).confidence
          ∧ (applyContextBoost c (classifySingle sims entries) utterance sid).confidence
              ≤ 19/20)
        ∧ ((applyContextBoost c (classifySingle sims entries) utterance sid).context_boosted
            ≠ some true →
          (applyContextBoost c (classifySingle sims entries) utterance sid).confidence
            = (classifySingle sims entries).confidence) := by
  have hbase := classifySingle_confidence_bounds sims entries hsims
  refine ⟨hbase, ?_⟩
  intro c utterance sid
  rcases applyContextBoost_confidence_cases c (classifySingle sims entries)
      utterance sid rfl with ⟨hb, hc⟩ | ⟨hb, hc⟩
  · refine ⟨fun _ => ?_, fun hn => absurd hb hn⟩
    rw [hc]
    constructor
    · apply le_min (by norm_num)
      have h0 := hbase.1
      split <;> linarith
    · exact min_le_left _ _
  · exact ⟨fun ht => absurd ht hb, fun _ => hc⟩

/-- C3, witness for the amended theorem at a concrete input. -/
theorem claim_C3_witness :
    (∀ s ∈ [(1 : ℚ)/2], 0 ≤ s ∧ s ≤ 1)
    ∧ ((0 ≤ (classifySingle [(1 : ℚ)/2] [⟨"A", "a", "c", "GA", 1, "t"⟩]).confidence
        ∧ (classifySingle [(1 : ℚ)/2] [⟨"A", "a", "c", "GA", 1, "t"⟩]).confidence ≤ 1)
      ∧ ∀ (c : Classifier) (utterance sid : String),
          ((applyContextBoost c
              (classifySingle [(1 : ℚ)/2] [⟨"A", "a", "c", "GA", 1, "t"⟩])
              utterance sid).context_boosted = some true →
            0 ≤ (applyContextBoost c
                (classifySingle [(1 : ℚ)/2] [⟨"A", "a", "c", "GA", 1, "t"⟩])
                utterance sid).confidence
            ∧ (applyContextBoost c
                (classifySingle [(1 : ℚ)/2] [⟨"A", "a", "c", "GA", 1, "t"⟩])
                utterance sid).confidence ≤ 19/20)
          ∧ ((applyContextBoost c
              (classifySingle [(1 : ℚ)/2] [⟨"A", "a", "c", "GA", 1, "t"⟩])
              utterance sid).context_boosted ≠ some true →
            (applyContextBoost c
                (classifySingle [(1 : ℚ)/2] [⟨"A", "a", "c", "GA", 1, "t"⟩])
                utterance sid).confidence
              = (classifySingle [(1 : ℚ)/2] [⟨"A", "a", "c", "GA", 1, "t"⟩]).confidence)) :=
  ⟨by decide,
   claim_C3_amended [(1 : ℚ)/2] [⟨"A", "a", "c", "GA", 1, "t"⟩] (by decide)⟩

/-! ### Claim C4: determinism of `EmbeddingGenerator.generate` -/

lemma asciiLowerChar_idem (c : Char) :
    asciiLowerChar (asciiLowerChar c) = asciiLowerChar c := by
  by_cases h : 65 ≤ c.toNat ∧ c.toNat ≤ 90
  · have hvalid : (c.toNat + 32).isValidChar := Or.inl (by omega)
    unfold asciiLowerChar
    rw [if_pos h, char_ofNat_toNat _ hvalid, if_neg (by omega)]
  · unfold asciiLowerChar
    rw [if_neg h, if_neg h]

lemma asciiLowerStr_idem (s : String) :
    asciiLowerStr (asciiLowerStr s) = asciiLowerStr s := by
  unfold asciiLowerStr
  have hcomp : asciiLowerChar ∘ asciiLowerChar = asciiLowerChar :=
    funext asciiLowerChar_idem
  simp [List.map_map, hcomp]

/-- C4: what is provable and what fails.  The generated vector is a pure
function of the lower-cased text GIVEN the process's string-hash function:
`embed(t) = embed(t.lower())` for every hash.  But the seed handed to
`np.random.seed` is `hash(text) % 2**32` with CPython's per-process salted
`hash`, so two processes with different salts (modelled as two hash
functions) produce different seeds — and hence different PRNG streams and
vectors — for the same text, contradicting both the claim and the
function's own "deterministic" docstring. -/
theorem claim_C4_theorem :
    (∀ (prng : Nat → List ℚ) (pyHash : String → Int) (t : String),
        embedGenerate prng pyHash t = embedGenerate prng pyHash (asciiLowerStr t))
    ∧ (∃ h1 h2 : String → Int, pyHashSeed h1 "hello" ≠ pyHashSeed h2 "hello") := by
  constructor
  · intro prng pyHash t
    unfold embedGenerate pyHashSeed
    rw [asciiLowerStr_idem]
  · exact ⟨fun _ => 0, fun _ => 1, by decide⟩

/-! ### Claim C5: the disambiguation decision rule -/

/-- C5: `needed = true` exactly when at least two candidates exist and the
difference between the top two scores is at most 0.15; in particular an
empty or single-candidate list yields `needed = false`. -/
theorem claim_C5_theorem (candidates : List Candidate) (utterance : String) :
    (generateDisambiguation candidates utterance).needed = true ↔
      ∃ c0 c1 rest, candidates = c0 :: c1 :: rest
        ∧ c0.score - c1.score ≤ 3/20 := by
  match candidates with
  | [] =>
    constructor
    · intro h
      exact absurd h (by simp [generateDisambiguation])
    · rintro ⟨c0, c1, rest, heq, -⟩
      exact absurd heq (by simp)
  | [c0] =>
    constructor
    · intro h
      exact absurd h (by simp [generateDisambiguation])
    · rintro ⟨a, b, rest, heq, -⟩
      exact absurd heq (by simp)
  | c0 :: c1 :: rest =>
    rcases le_or_lt (c0.score - c1.score) (3/20 : ℚ) with hle | hlt
    · have hneed : (generateDisambiguation (c0 :: c1 :: rest) utterance).needed = true := by
        simp [generateDisambiguation, not_lt.mpr hle]
      rw [hneed]
      exact iff_of_true rfl ⟨c0, c1, rest, rfl, hle⟩
    · have hneed : (generateDisambiguation (c0 :: c1 :: rest) utterance).needed = false := by
        simp [generateDisambiguation, hlt]
      rw [hneed]
      constructor
      · intro h
        exact absurd h (by simp)
      · rintro ⟨a, b, r, heq, hle2⟩
        obtain ⟨rfl, rfl, rfl⟩ : a = c0 ∧ b = c1 ∧ r = rest := by
          injection heq with h1 h2
          injection h2 with h2 h3
          exact ⟨h1.symm, h2.symm, h3.symm⟩
        linarith

/-! ### Claim C6: the context-boost switching rule -/

lemma bor_iff (a b : Bool) : (a || b) = true ↔ a = true ∨ b = true := by
  simp

/-- C6: with nonempty recent history, the boost switches the result
(`context_boosted = true`) exactly when (cue OR at most 4 words) AND
confidence < 0.8 AND some top-5 candidate's intent occurs in the last 3
session intents; the switch adopts the FIRST such candidate in rank order,
adds 0.15 (cue present) or 0.10 (short only) capped at 0.95, and records
the original intent and confidence. -/
theorem claim_C6_theorem (c : Classifier) (result : BaseResult)
    (utterance sid : String) (hrec : getRecentIntents c.sess sid 3 ≠ []) :
    ((applyContextBoost c result utterance sid).context_boosted = some true ↔
      ((hasContinuation utterance = true ∨ isShortUtterance utterance = true)
        ∧ result.confidence < 4/5
        ∧ ∃ cand ∈ getCandidates c utterance 5,
            cand.intent ∈ getRecentIntents c.sess sid 3))
    ∧ ∀ cand : Candidate,
        (getCandidates c utterance 5).find?
            (fun x => (getRecentIntents c.sess sid 3).contains x.intent) = some cand →
        (hasContinuation utterance = true ∨ isShortUtterance utterance = true) →
        result.confidence < 4/5 →
        (applyContextBoost c result utterance sid).intent = cand.intent
        ∧ (applyContextBoost c result utterance sid).confidence
            = min (19/20)
                (result.confidence + (if hasContinuation utterance then 3/20 else 1/10))
        ∧ (applyContextBoost c result utterance sid).original_intent = some result.intent
        ∧ (applyContextBoost c result utterance sid).original_confidence
            = some result.confidence := by
  unfold applyContextBoost
  dsimp only
  split
  · rename_i hempty
    exact absurd (List.isEmpty_iff.mp hempty) hrec
  · split
    · rename_i hcond
      split
      · rename_i cand hfind
        constructor
        · refine iff_of_true rfl ⟨(bor_iff _ _).mp hcond.1, hcond.2, ?_⟩
          have hp := List.find?_some hfind
          exact ⟨cand, List.mem_of_find?_eq_some hfind, List.elem_iff.mp hp⟩
        · intro cand2 hfind2 _ _
          have hc : cand = cand2 := Option.some.inj (hfind.symm.trans hfind2)
          subst hc
          exact ⟨rfl, rfl, rfl, rfl⟩
      · rename_i hfind
        constructor
        · refine iff_of_false (by simp) ?_
          rintro ⟨-, -, cand, hmem, hintent⟩
          have hsome : ((getCandidates c utterance 5).find?
              (fun x => (getRecentIntents c.sess sid 3).contains x.intent)).isSome :=
            List.find?_isSome.mpr ⟨cand, hmem, List.elem_iff.mpr hintent⟩
          rw [hfind] at hsome
          simp at hsome
        · intro cand2 hfind2
          rw [hfind] at hfind2
          exact absurd hfind2 (by simp)
    · rename_i hcond
      constructor
      · refine iff_of_false (by simp) ?_
        rintro ⟨hdisj, hconf, -⟩
        exact hcond ⟨(bor_iff _ _).mpr hdisj, hconf⟩
      · intro cand2 hfind2 hdisj hconf
        exact absurd ⟨(bor_iff _ _).mpr hdisj, hconf⟩ hcond

/-- Concrete classifier used by the C6 witness: one stored entry for
`deductible`, similarity 0.5, and one prior session turn resolved to
`deductible`. -/
def cC6 : Classifier :=
  ⟨[⟨"D", "deductible", "plan", "DeductibleAgent", 2, "td"⟩],
   fun _ => [1/2],
   ⟨fun s => if s = "sess" then [⟨"u0", "deductible", 1/2, [], []⟩] else [],
    fun _ => []⟩⟩

/-- Concrete base result used by the C6 witness. -/
def rC6 : BaseResult :=
  ⟨"unknown", "UNK", "FallbackAgent", "unknown", 5, 1/2, 0,
   none, none, none, none, none⟩

/-- C6, witness at a concrete input. -/
theorem claim_C6_witness :
    getRecentIntents cC6.sess "sess" 3 ≠ []
    ∧ (((applyContextBoost cC6 rC6 "what about that" "sess").context_boosted = some true ↔
        ((hasContinuation "what about that" = true
            ∨ isShortUtterance "what about that" = true)
          ∧ rC6.confidence < 4/5
          ∧ ∃ cand ∈ getCandidates cC6 "what about that" 5,
              cand.intent ∈ getRecentIntents cC6.sess "sess" 3))
      ∧ ∀ cand : Candidate,
          (getCandidates cC6 "what about that" 5).find?
              (fun x => (getRecentIntents cC6.sess "sess" 3).contains x.intent)
              = some cand →
          (hasContinuation "what about that" = true
            ∨ isShortUtterance "what about that" = true) →
          rC6.confidence < 4/5 →
          (applyContextBoost cC6 rC6 "what about that" "sess").intent = cand.intent
          ∧ (applyContextBoost cC6 rC6 "what about that" "sess").confidence
              = min (19/20)
                  (rC6.confidence
                    + (if hasContinuation "what about that" then 3/20 else 1/10))
          ∧ (applyContextBoost cC6 rC6 "what about that" "sess").original_intent
              = some rC6.intent
          ∧ (applyContextBoost cC6 rC6 "what about that" "sess").original_confidence
              = some rC6.confidence) :=
  ⟨by decide, claim_C6_theorem cC6 rC6 "what about that" "sess" (by decide)⟩

/-! ### Claim C7: bounded session history -/

lemma sessionAdd_sessions_self (st : SessionState) (sid : String) (t : Turn) :
    (sessionAdd st sid t).sessions sid
      = (st.sessions sid ++ [t]).drop ((st.sessions sid ++ [t]).length - 10) := by
  unfold sessionAdd
  dsimp only
  rw [if_pos rfl]
  split
  · unfold takeLastPy
    rw [if_neg (by omega)]
  · rename_i h
    have hz : (st.sessions sid ++ [t]).length - 10 = 0 := by omega
    rw [hz, List.drop_zero]

lemma foldAdd_sessions (turns : List Turn) (st : SessionState) (sid : String)
    (hlen : (st.sessions sid).length ≤ 10) :
    ((turns.foldl (fun s t => sessionAdd s sid t) st).sessions sid)
      = (st.sessions sid ++ turns).drop ((st.sessions sid ++ turns).length - 10) := by
  induction turns generalizing st with
  | nil =>
    simp only [List.foldl_nil, List.append_nil]
    have hz : (st.sessions sid).length - 10 = 0 := by omega
    rw [hz, List.drop_zero]
  | cons t tl ih =>
    rw [List.foldl_cons]
    have hnew : ((sessionAdd st sid t).sessions sid).length ≤ 10 := by
      rw [sessionAdd_sessions_self, List.length_drop]
      omega
    rw [ih _ hnew, sessionAdd_sessions_self]
    have h1 : (st.sessions sid ++ [t]).drop ((st.sessions sid ++ [t]).length - 10) ++ tl
        = ((st.sessions sid ++ [t]) ++ tl).drop ((st.sessions sid ++ [t]).length - 10) := by
      conv_rhs => rw [List.drop_append_eq_append_drop]
      have hz : (st.sessions sid ++ [t]).length - 10 - (st.sessions sid ++ [t]).length
          = 0 := by
        omega
      rw [hz, List.drop_zero]
    rw [h1, List.drop_drop]
    have h2 : st.sessions sid ++ t :: tl = (st.sessions sid ++ [t]) ++ tl := by
      rw [List.append_assoc, List.singleton_append]
    rw [h2]
    congr 1
    simp only [List.length_drop, List.length_append]
    omega

/-- C7: starting from a fresh session, after appending more than 10 turns
the store holds exactly the last 10 of them in append order, and
`get(session_id, 100)` returns exactly those 10 turns. -/
theorem claim_C7_theorem (st : SessionState) (sid : String) (turns : List Turn)
    (hfresh : st.sessions sid = []) (hlen : 10 < turns.length) :
    sessionGet (turns.foldl (fun s t => sessionAdd s sid t) st) sid 100
      = turns.drop (turns.length - 10)
    ∧ (sessionGet (turns.foldl (fun s t => sessionAdd s sid t) st) sid 100).length
        = 10 := by
  have hmain := foldAdd_sessions turns st sid (by rw [hfresh]; simp)
  rw [hfresh] at hmain
  simp only [List.nil_append] at hmain
  have hget : sessionGet (turns.foldl (fun s t => sessionAdd s sid t) st) sid 100
      = turns.drop (turns.length - 10) := by
    unfold sessionGet takeLastPy
    rw [if_neg (by omega), hmain, List.length_drop]
    have hz : turns.length - (turns.length - 10) - 100 = 0 := by omega
    rw [hz, List.drop_zero]
  refine ⟨hget, ?_⟩
  rw [hget, List.length_drop]
  omega

/-- Eleven concrete turns for the C7 witness. -/
def turnsC7 : List Turn :=
  (List.range 11).map (fun i => ⟨toString i, toString i, 1/2, [], []⟩)

/-- C7, witness at a concrete input. -/
theorem claim_C7_witness :
    (emptySessions.sessions "sid" = [] ∧ 10 < turnsC7.length)
    ∧ (sessionGet (turnsC7.foldl (fun s t => sessionAdd s "sid" t) emptySessions)
          "sid" 100
        = turnsC7.drop (turnsC7.length - 10)
      ∧ (sessionGet (turnsC7.foldl (fun s t => sessionAdd s "sid" t) emptySessions)
            "sid" 100).length = 10) :=
  ⟨⟨rfl, by decide⟩, claim_C7_theorem emptySessions "sid" turnsC7 rfl (by decide)⟩

/-! ### Claim C8: graceful degradation on an empty index -/

lemma classifySingle_nil (entries : List Meta) :
    classifySingle [] entries
      = { intent := "unknown", intent_id := "UNK", agent_routing := "FallbackAgent",
          category := "unknown", priority := 5, confidence := pyRound3 (1/2),
          top_match_score := 0 } := rfl

lemma pyRound3_half : pyRound3 (1/2) = 1/2 := by decide

lemma getCandidates_empty (c : Classifier) (u : String) (k : Nat)
    (h : c.simTo u = []) : getCandidates c u k = [] := by
  simp [getCandidates, h, storeSearch]

lemma applyContextBoost_preserves (c : Classifier) (result : BaseResult)
    (utterance sid : String) (h : getCandidates c utterance 5 = []) :
    (applyContextBoost c result utterance sid).intent = result.intent
    ∧ (applyContextBoost c result utterance sid).intent_id = result.intent_id
    ∧ (applyContextBoost c result utterance sid).agent_routing = result.agent_routing
    ∧ (applyContextBoost c result utterance sid).confidence = result.confidence := by
  unfold applyContextBoost
  dsimp only
  split
  · exact ⟨rfl, rfl, rfl, rfl⟩
  · split
    · rw [h]
      exact ⟨rfl, rfl, rfl, rfl⟩
    · exact ⟨rfl, rfl, rfl, rfl⟩

/-- C8: with an empty vector index, `classify` completes and returns the
fallback routing decision (`"unknown"` / `"UNK"` / `"FallbackAgent"`,
confidence 0.5) with no disambiguation, regardless of utterance, session
and history; an utterance matching zero slot patterns yields the empty
slot map; and a read of an unknown (never-written) session id yields the
empty history. -/
theorem claim_C8_theorem (c : Classifier) (utterance sid : String)
    (hempty : c.entries = [] ∧ ∀ u, c.simTo u = []) :
    ((classify c utterance sid true).1.intent = "unknown"
      ∧ (classify c utterance sid true).1.intent_id = "UNK"
      ∧ (classify c utterance sid true).1.agent_routing = "FallbackAgent"
      ∧ (classify c utterance sid true).1.confidence = 1/2
      ∧ (classify c utterance sid true).1.needs_disambiguation = false)
    ∧ (∀ (u2 i2 : String), extractIntentSlots u2 i2 = [] →
        extractCommonSlots u2 = [] → extractSlots u2 i2 = [])
    ∧ (∀ (st : SessionState) (sid2 : String) (n : Nat),
        st.sessions sid2 = [] → sessionGet st sid2 n = []) := by
  obtain ⟨hent, hsim⟩ := hempty
  have hbase : classifySingle (c.simTo utterance) c.entries
      = { intent := "unknown", intent_id := "UNK", agent_routing := "FallbackAgent",
          category := "unknown", priority := 5, confidence := pyRound3 (1/2),
          top_match_score := 0 } := by
    rw [hsim utterance]
    exact classifySingle_nil c.entries
  have hcand5 := getCandidates_empty c utterance 5 (hsim utterance)
  have hcand3 := getCandidates_empty c utterance 3 (hsim utterance)
  have hpres := applyContextBoost_preserves c
    (classifySingle (c.simTo utterance) c.entries) utterance sid hcand5
  refine ⟨⟨?_, ?_, ?_, ?_, ?_⟩, ?_, ?_⟩
  · show (applyContextBoost c (classifySingle (c.simTo utterance) c.entries)
        utterance sid).intent = "unknown"
    rw [hpres.1, hbase]
  · show (applyContextBoost c (classifySingle (c.simTo utterance) c.entries)
        utterance sid).intent_id = "UNK"
    rw [hpres.2.1, hbase]
  · show (applyContextBoost c (classifySingle (c.simTo utterance) c.entries)
        utterance sid).agent_routing = "FallbackAgent"
    rw [hpres.2.2.1, hbase]
  · show (applyContextBoost c (classifySingle (c.simTo utterance) c.entries)
        utterance sid).confidence = 1/2
    rw [hpres.2.2.2, hbase]
    exact pyRound3_half
  · show (generateDisambiguation (getCandidates c utterance 3) utterance).needed
        = false
    rw [hcand3]
    rfl
  · intro u2 i2 h1 h2
    unfold extractSlots
    rw [h1, h2]
    rfl
  · intro st sid2 n h
    unfold sessionGet takeLastPy
    rw [h]
    split
    · rfl
    · exact List.drop_nil

/-- Concrete empty-index classifier for the C8 witness. -/
def cC8 : Classifier := ⟨[], fun _ => [], emptySessions⟩

/-- C8, witness at a concrete input. -/
theorem claim_C8_witness :
    (cC8.entries = [] ∧ ∀ u, cC8.simTo u = [])
    ∧ (((classify cC8 "hi" "s" true).1.intent = "unknown"
        ∧ (classify cC8 "hi" "s" true).1.intent_id = "UNK"
        ∧ (classify cC8 "hi" "s" true).1.agent_routing = "FallbackAgent"
        ∧ (classify cC8 "hi" "s" true).1.confidence = 1/2
        ∧ (classify cC8 "hi" "s" true).1.needs_disambiguation = false)
      ∧ (∀ (u2 i2 : String), extractIntentSlots u2 i2 = [] →
          extractCommonSlots u2 = [] → extractSlots u2 i2 = [])
      ∧ (∀ (st : SessionState) (sid2 : String) (n : Nat),
          st.sessions sid2 = [] → sessionGet st sid2 n = [])) :=
  ⟨⟨rfl, fun _ => rfl⟩, claim_C8_theorem cC8 "hi" "s" ⟨rfl, fun _ => rfl⟩⟩

/-! ### Claim C9: explicitly surfaced errors -/

lemma sessionGet_one_isEmpty (st : SessionState) (sid : String) :
    (sessionGet st sid 1).isEmpty = true ↔ st.sessions sid = [] := by
  unfold sessionGet takeLastPy
  rw [if_neg (by omega), List.isEmpty_iff]
  constructor
  · intro h
    have hl : ((st.sessions sid).drop ((st.sessions sid).length - 1)).length = 0 := by
      rw [h]
      rfl
    rw [List.length_drop] at hl
    have hz : (st.sessions sid).length = 0 := by omega
    exact List.eq_nil_of_length_eq_zero hz
  · intro h
    rw [h]
    exact List.drop_nil

/-- Concrete classifier with three distinct candidate intents and no
session history, for the C9 counterexample. -/
def cC9 : Classifier :=
  ⟨[⟨"A", "a", "ca", "GA", 1, "ta"⟩, ⟨"B", "b", "cb", "GB", 1, "tb"⟩,
    ⟨"C", "c", "cc", "GC", 1, "tc"⟩],
   fun _ => [1/2, 2/5, 3/10], emptySessions⟩

/-- C9, counterexample.  Selection 2 is inside the valid option range
(1..3), yet `handle_disambiguation_response` surfaces an explicit
`"No disambiguation pending"` error because no session history exists — so
an out-of-range selection index is NOT the only condition surfaced as an
explicit error. -/
theorem claim_C9_counterexample :
    ((1 : Int) ≤ 2 ∧ (2 : Int) ≤ ((getCandidates cC9 "u" 3).length : Int))
    ∧ (handleDisambiguationResponse cC9 "s" 2).error
        = some "No disambiguation pending" := by
  decide

/-- C9, amended: the skill-layer resolver reports an explicit
`"Invalid option. Please select 1-N"` error exactly for a selection index
outside 1..N (N the number of candidates for the original utterance); but
this is not the only explicitly surfaced error: the classifier-core
handler reports `"No disambiguation pending"` exactly when the session has
no history (and performs no range validation at all). -/
theorem claim_C9_amended (c : Classifier) (sid : String) (sel : Int) (u : String) :
    ((resolveDisambiguation c sid sel u
        = ResolveOutcome.errorResp
            ("Invalid option. Please select 1-"
              ++ toString (getCandidates c u 3).length))
      ↔ (sel < 1 ∨ ((getCandidates c u 3).length : Int) < sel))
    ∧ ((handleDisambiguationResponse c sid sel).error
          = some "No disambiguation pending"
      ↔ c.sess.sessions sid = []) := by
  constructor
  · unfold resolveDisambiguation
    dsimp only
    split
    · rename_i hcond
      exact iff_of_true rfl hcond
    · rename_i hcond
      exact iff_of_false (by simp) hcond
  · unfold handleDisambiguationResponse
    split
    · rename_i hemp
      exact iff_of_true rfl ((sessionGet_one_isEmpty c.sess sid).mp hemp)
    · rename_i hemp
      refine iff_of_false (by simp) ?_
      intro h
      exact hemp ((sessionGet_one_isEmpty c.sess sid).mpr h)

/-! ### Claim C10: shape of the `multi_intents` field -/

/-- C10: `multi_intents` is `none` or a list of at least two entries —
never a nonempty list with fewer than two, since sub-classification runs
only when segmentation yields more than one segment. -/
theorem claim_C10_theorem (c : Classifier) (utterance sid : String) (ca : Bool) :
    (classify c utterance sid ca).1.multi_intents = none
    ∨ ∃ l, (classify c utterance sid ca).1.multi_intents = some l ∧ 2 ≤ l.length := by
  obtain ⟨M, hM, hfield⟩ :
      ∃ M : List MultiIntentEntry, (M = [] ∨ 2 ≤ M.length)
        ∧ (classify c utterance sid ca).1.multi_intents
            = (if M.isEmpty then none else some M) := by
    refine ⟨_, ?_, rfl⟩
    dsimp only
    split
    · split
      · rename_i hseg
        right
        rw [List.length_map]
        omega
      · left
        rfl
    · left
      rfl
  rw [hfield]
  rcases hM with rfl | h2
  · left
    rfl
  · right
    have hne : ¬ (M.isEmpty = true) := by
      intro he
      rw [List.isEmpty_iff.mp he] at h2
      simp at h2
    rw [if_neg hne]
    exact ⟨M, rfl, h2⟩
